import Mathlib

/-!
Verification of the eliot action/task lifecycle core (`eliot/_action.py`).

The Python code is shallowly embedded: Python dicts become association
lists with Python-dict update semantics, object mutation becomes explicit
state passing, and message emission to the abstract logger becomes
appending to an explicit log trace.  `Message` (from `eliot/_message.py`)
and `safeunicode` (from `eliot/_util.py`) are not part of the sources under
verification; per the specification they are external collaborators and are
modelled from the spec's description of their interfaces.
-/

namespace Eliot

/-- Field values carried in log messages.  The core treats values opaquely;
strings and naturals suffice for the collaborators that appear here. -/
inductive Value where
  | str : String → Value
  | nat : Nat → Value
deriving DecidableEq, Repr

/-- A Python dict of message fields, embedded as an association list.
`Dict.set` and `Dict.update` mirror `d[k] = v` and `d.update(other)`. -/
def Dict : Type := List (String × Value)

instance : DecidableEq Dict := inferInstanceAs (DecidableEq (List (String × Value)))

instance : Repr Dict := inferInstanceAs (Repr (List (String × Value)))

/-- The empty dict (`{}`). -/
def Dict.empty : Dict := ([] : List (String × Value))

/-- Build a dict from an explicit entry list (a Python dict literal with
distinct keys). -/
def Dict.ofList (l : List (String × Value)) : Dict := l

/-- Lookup `d[k]`, as an option: the value bound to the first matching key. -/
def Dict.get : Dict → String → Option Value
  | ([] : List (String × Value)), _ => none
  | ((kv :: rest) : List (String × Value)), key =>
      if kv.1 = key then some kv.2 else Dict.get rest key

/-- Assignment `d[key] = val`: replace the binding in place if the key is present,
otherwise append it. -/
def Dict.set : Dict → String → Value → Dict
  | ([] : List (String × Value)), key, val => [(key, val)]
  | ((kv :: rest) : List (String × Value)), key, val =>
      if kv.1 = key then ((key, val) :: rest : List (String × Value))
      else (kv :: Dict.set rest key val : List (String × Value))

/-- Update `d.update(other)`: write every binding of `other` into `d`, in order. -/
def Dict.update (d other : Dict) : Dict :=
  List.foldl (fun acc kv => Dict.set acc kv.1 kv.2) d other

/-- The keys of a dict, in storage order. -/
def Dict.keys (d : Dict) : List String :=
  List.map Prod.fst d

theorem Dict.get_set_same (d : Dict) (k : String) (v : Value) :
    Dict.get (Dict.set d k v) k = some v := by
  induction d with
  | nil => simp [Dict.set, Dict.get]
  | cons kv rest ih =>
      by_cases h : kv.1 = k
      · simp [Dict.set, Dict.get, h]
      · simp [Dict.set, Dict.get, h, ih]

theorem Dict.get_set_ne (d : Dict) (k k' : String) (v : Value) (h : k' ≠ k) :
    Dict.get (Dict.set d k v) k' = Dict.get d k' := by
  have hne : ¬k = k' := fun he => h he.symm
  induction d with
  | nil => simp [Dict.set, Dict.get, hne]
  | cons kv rest ih =>
      by_cases hk : kv.1 = k
      · simp [Dict.set, Dict.get, hk, hne]
      · simp [Dict.set, Dict.get, hk, ih]

theorem Dict.update_cons (d : Dict) (kv : String × Value)
    (rest : List (String × Value)) :
    Dict.update d (Dict.ofList (kv :: rest)) =
      Dict.update (Dict.set d kv.1 kv.2) (Dict.ofList rest) := rfl

theorem Dict.get_update_of_not_mem (d other : Dict) (k : String)
    (h : k ∉ Dict.keys other) :
    Dict.get (Dict.update d other) k = Dict.get d k := by
  induction other generalizing d with
  | nil => rfl
  | cons kv rest ih =>
      have hmem : ¬(k = kv.1 ∨ k ∈ Dict.keys rest) := by
        simpa [Dict.keys] using h
      push_neg at hmem
      calc Dict.get (Dict.update (Dict.set d kv.1 kv.2) rest) k
          = Dict.get (Dict.set d kv.1 kv.2) k := ih _ hmem.2
        _ = Dict.get d k := Dict.get_set_ne _ _ _ _ hmem.1

theorem Dict.get_update_nodup (d other : Dict) (k : String)
    (h : (Dict.keys other).Nodup) :
    Dict.get (Dict.update d other) k =
      match Dict.get other k with
      | some v => some v
      | none => Dict.get d k := by
  induction other generalizing d with
  | nil => rfl
  | cons kv rest ih =>
      have hcons : kv.1 ∉ Dict.keys rest ∧ (Dict.keys rest).Nodup := by
        simpa [Dict.keys] using h
      by_cases hk : kv.1 = k
      · subst hk
        have : Dict.get (Dict.update (Dict.set d kv.1 kv.2) rest) kv.1 =
            Dict.get (Dict.set d kv.1 kv.2) kv.1 :=
          Dict.get_update_of_not_mem _ _ _ hcons.1
        simp only [Dict.update, List.foldl] at *
        simp [this, Dict.get_set_same, Dict.get]
      · have step : Dict.get (Dict.update d (kv :: rest : List (String × Value))) k =
            Dict.get (Dict.update (Dict.set d kv.1 kv.2) rest) k := rfl
        rw [step, ih _ hcons.2]
        have hget : Dict.get ((kv :: rest : List (String × Value))) k =
            Dict.get rest k := by
          simp [Dict.get, hk]
        rw [hget]
        cases hr : Dict.get rest k with
        | some v => rfl
        | none => simp [Dict.get_set_ne _ _ _ _ (fun he => hk he.symm)]

/-- The `Action._identification` dict
`{"task_uuid": ..., "task_level": ..., "action_type": ...}` built in
`Action.__init__`, kept structured here with `Identification.toDict` as the
literal dict. -/
structure Identification where
  task_uuid : String
  task_level : String
  action_type : String
deriving DecidableEq, Repr

/-- The dict literal stored in `self._identification`. -/
def Identification.toDict (i : Identification) : Dict :=
  Dict.ofList
    [("task_uuid", Value.str i.task_uuid),
     ("task_level", Value.str i.task_level),
     ("action_type", Value.str i.action_type)]

/-- An `_ActionSerializers` instance: three serializer capabilities, one for
start messages, one for success finishes, one for failure finishes.  The
serializers themselves are external collaborators; they are identified
opaquely by a natural number. -/
structure ActionSerializers where
  start : Nat
  success : Nat
  failure : Nat
deriving DecidableEq, Repr

/-- Modelled from the spec: `Message(fields, serializer).write(logger, self)`
(`eliot/_message.py` is not among the sources).  Per the spec the logger is
an abstract capability that accepts the fully-formed field mapping; the
serializer optionally transforms it downstream.  A written message is
recorded as the field mapping together with the serializer selected for it,
and emission is appending such a record to an explicit log trace. -/
structure Emitted where
  fields : Dict
  serializer : Option Nat
deriving DecidableEq, Repr

/-- Modelled from the spec: business-logic exceptions are external data,
carrying the defining module of their type (`__class__.__module__`), the
type name (`__class__.__name__`), and a best-effort string form. -/
structure Exc where
  module : String
  name : String
  text : String
deriving DecidableEq, Repr

/-- Modelled from the spec: `safeunicode` (`eliot/_util.py` is not among the
sources) returns the best-effort string form of the exception. -/
def safeunicode (e : Exc) : String := e.text

/-- The state of an `Action` object.  The logger the action writes to is an
external capability, identified opaquely by a natural number. -/
structure Action where
  logger : Nat
  numberOfChildren : Nat
  numberOfMessages : Nat
  successFields : Dict
  identification : Identification
  serializers : Option ActionSerializers
  finished : Bool
deriving DecidableEq, Repr

/-- Constructor `Action.__init__(logger, task_uuid, task_level, action_type,
serializers)`: counters at zero, empty success fields, not finished.
(The start message is logged separately by the factory functions, via
`Action._start`.) -/
def Action.init (logger : Nat) (task_uuid task_level action_type : String)
    (serializers : Option ActionSerializers) : Action :=
  { logger := logger
    numberOfChildren := 0
    numberOfMessages := 0
    successFields := Dict.empty
    identification :=
      { task_uuid := task_uuid, task_level := task_level,
        action_type := action_type }
    serializers := serializers
    finished := false }

/-- Method `Action._incrementMessageCounter`: `next(self._numberOfMessages)` on the
`itertools.count()` iterator — returns the current counter value and the
action with the counter advanced. -/
def Action.incrementMessageCounter (a : Action) : Nat × Action :=
  (a.numberOfMessages, { a with numberOfMessages := a.numberOfMessages + 1 })

/-- Method `Action._start(fields)`: set `action_status = "started"`, overwrite with
the identification fields, select the start serializer if serializers are
present, and write the message.  The action's own state is not touched; the
written message is appended to the log trace. -/
def Action.start (a : Action) (fields : Dict) (log : List Emitted) :
    List Emitted :=
  let fields1 := Dict.set fields "action_status" (Value.str "started")
  let fields2 := Dict.update fields1 (Identification.toDict a.identification)
  let serializer := Option.map ActionSerializers.start a.serializers
  log ++ [{ fields := fields2, serializer := serializer }]

/-- Method `Action.finish(exception=None)`: a no-op if already finished; otherwise
mark finished and write exactly one finish message — on success the
accumulated success fields plus `action_status = "succeeded"` (the source
mutates `self._successFields` in place through the `fields` alias, which the
returned state reproduces), on failure a fresh dict with `exception`,
`reason` and `action_status = "failed"`; either way the identification
fields are merged last and the matching serializer is selected. -/
def Action.finish (a : Action) (exception : Option Exc) (log : List Emitted) :
    Action × List Emitted :=
  if a.finished then (a, log)
  else
    match exception with
    | none =>
        let fields1 :=
          Dict.set a.successFields "action_status" (Value.str "succeeded")
        let serializer := Option.map ActionSerializers.success a.serializers
        let fields2 :=
          Dict.update fields1 (Identification.toDict a.identification)
        ({ a with finished := true, successFields := fields2 },
         log ++ [{ fields := fields2, serializer := serializer }])
    | some e =>
        let fields1 :=
          Dict.set Dict.empty "exception"
            (Value.str (e.module ++ "." ++ e.name))
        let fields2 := Dict.set fields1 "reason" (Value.str (safeunicode e))
        let fields3 := Dict.set fields2 "action_status" (Value.str "failed")
        let serializer := Option.map ActionSerializers.failure a.serializers
        let fields4 :=
          Dict.update fields3 (Identification.toDict a.identification)
        ({ a with finished := true },
         log ++ [{ fields := fields4, serializer := serializer }])

/-- Method `Action.child(logger, action_type, serializers=None)`: increment
`_numberOfChildren`, append `unicode(self._numberOfChildren) + "/"` to this
action's task level, and construct the child action sharing this action's
`task_uuid`.  No message is written — the log trace passes through
unchanged — and the child is not started. -/
def Action.child (a : Action) (logger : Nat) (action_type : String)
    (serializers : Option ActionSerializers) (log : List Emitted) :
    Action × Action × List Emitted :=
  let n := a.numberOfChildren + 1
  let newLevel := a.identification.task_level ++ toString n ++ "/"
  ({ a with numberOfChildren := n },
   Action.init logger a.identification.task_uuid newLevel action_type
     serializers,
   log)

/-- Method `Action.addSuccessFields(**fields)`:
`self._successFields.update(fields)` — unconditionally, whether or not the
action has finished. -/
def Action.addSuccessFields (a : Action) (fields : Dict) : Action :=
  { a with successFields := Dict.update a.successFields fields }

/-- The `_ExecutionContext` class: the per-logical-thread stack of open actions
(`self._stack = []` on lazy initialization). -/
structure ExecutionContext where
  stack : List Action
deriving DecidableEq, Repr

/-- Constructor `_ExecutionContext.__init__`: the empty stack. -/
def ExecutionContext.empty : ExecutionContext := { stack := [] }

/-- Method `push(action)`: `self._stack.append(action)`. -/
def ExecutionContext.push (c : ExecutionContext) (action : Action) :
    ExecutionContext :=
  { stack := c.stack ++ [action] }

/-- Method `pop()`: `self._stack.pop(-1)` — removes the top-most entry; on an empty
stack Python raises `IndexError`, embedded as `none`. -/
def ExecutionContext.pop (c : ExecutionContext) : Option ExecutionContext :=
  match c.stack with
  | [] => none
  | _ :: _ => some { stack := c.stack.dropLast }

/-- Method `current()`: the top-most action, or `None` if the stack is empty. -/
def ExecutionContext.current (c : ExecutionContext) : Option Action :=
  c.stack.getLast?

/-- Python mutates the parent `Action` object in place while it sits on the
stack; the pure embedding writes the updated parent back to the top slot. -/
def ExecutionContext.setTop (c : ExecutionContext) (action : Action) :
    ExecutionContext :=
  { stack := c.stack.dropLast ++ [action] }

/-- Method `Action.__enter__`: push this action onto the execution context and
return it. -/
def Action.enter (a : Action) (ctx : ExecutionContext) :
    ExecutionContext × Action :=
  (ExecutionContext.push ctx a, a)

/-- Method `Action.__exit__(type, exception, traceback)`: pop the execution context
(failing as `pop` does on an empty stack), then `self.finish(exception)`.
The final `Bool` is the truthiness of `__exit__`'s return value — `None`,
i.e. `false` — so a propagating exception is never suppressed. -/
def Action.exit (a : Action) (ctx : ExecutionContext) (exception : Option Exc)
    (log : List Emitted) :
    Option (ExecutionContext × Action × List Emitted × Bool) :=
  match ExecutionContext.pop ctx with
  | none => none
  | some ctx' =>
      let p := Action.finish a exception log
      some (ctx', p.1, p.2, false)

/-- Function `startTask(logger, action_type, _serializers=None, **fields)`: build a
root action at task level `"/"` and log its start message.  `uuid4()` is
external randomness, so the fresh task identifier is a parameter. -/
def startTask (logger : Nat) (uuid : String) (action_type : String)
    (serializers : Option ActionSerializers) (fields : Dict)
    (log : List Emitted) : Action × List Emitted :=
  let action := Action.init logger uuid "/" action_type serializers
  (action, Action.start action fields log)

/-- Function `startAction(logger, action_type, _serializers=None, **fields)`: resolve
the current action from the execution context; with no parent defer to
`startTask`, otherwise create a child of the parent via `Action.child`
(writing the mutated parent back to the stack top) and log the child's
start message. -/
def startAction (ctx : ExecutionContext) (logger : Nat) (uuid : String)
    (action_type : String) (serializers : Option ActionSerializers)
    (fields : Dict) (log : List Emitted) :
    ExecutionContext × Action × List Emitted :=
  match ExecutionContext.current ctx with
  | none =>
      let p := startTask logger uuid action_type serializers fields log
      (ctx, p.1, p.2)
  | some parent =>
      let p := Action.child parent logger action_type serializers log
      (ExecutionContext.setTop ctx p.1, p.2.1,
       Action.start p.2.1 fields p.2.2)

/-- Modelled from the spec: the eventual outcome of the future-like handle
handed to `finishAfter`.  A Twisted `Failure` wraps the underlying
exception, recovered by `result.value`; here `failure` carries that
exception directly. -/
inductive DeferredResult where
  | success : Value → DeferredResult
  | failure : Exc → DeferredResult
deriving DecidableEq, Repr

/-- The `done(result)` continuation defined inside `Action.finishAfter`:
extract the exception when the result is a failure (`None` otherwise), call
`finish` with it, and return the original result unchanged for downstream
continuations. -/
def Action.finishAfterDone (a : Action) (result : DeferredResult)
    (log : List Emitted) : Action × List Emitted × DeferredResult :=
  let exception : Option Exc :=
    match result with
    | DeferredResult.failure f => some f
    | DeferredResult.success _ => none
  let p := Action.finish a exception log
  (p.1, p.2, result)

/-- Method `Action.finishAfter(deferred)`: `deferred.addBoth(done)` only registers
the single `done` continuation — nothing is waited on and no message is
written, so the action and the log trace come back unchanged, paired with
the registered continuation. -/
def Action.finishAfter (a : Action) (log : List Emitted) :
    (Action × List Emitted) ×
      (DeferredResult → List Emitted → Action × List Emitted × DeferredResult) :=
  ((a, log), Action.finishAfterDone a)

/-- N successive `child` calls on one action: each call is given its
logger, action type and serializers; the final parent state, the children
in creation order, and the log trace are returned. -/
def childCalls (a : Action)
    (specs : List (Nat × String × Option ActionSerializers))
    (log : List Emitted) : Action × List Action × List Emitted :=
  match specs with
  | [] => (a, [], log)
  | s :: rest =>
      let step := Action.child a s.1 s.2.1 s.2.2 log
      let restRes := childCalls step.1 rest step.2.2
      (restRes.1, step.2.1 :: restRes.2.1, restRes.2.2)

theorem Dict.get_update_identification (d : Dict) (i : Identification) :
    Dict.get (Dict.update d (Identification.toDict i)) "task_uuid" =
        some (Value.str i.task_uuid) ∧
    Dict.get (Dict.update d (Identification.toDict i)) "task_level" =
        some (Value.str i.task_level) ∧
    Dict.get (Dict.update d (Identification.toDict i)) "action_type" =
        some (Value.str i.action_type) ∧
    ∀ k, k ≠ "task_uuid" → k ≠ "task_level" → k ≠ "action_type" →
      Dict.get (Dict.update d (Identification.toDict i)) k = Dict.get d k := by
  have hu : Dict.update d (Identification.toDict i) =
      Dict.set
        (Dict.set (Dict.set d "task_uuid" (Value.str i.task_uuid))
          "task_level" (Value.str i.task_level))
        "action_type" (Value.str i.action_type) := rfl
  refine ⟨?_, ?_, ?_, ?_⟩
  · rw [hu, Dict.get_set_ne _ _ _ _ (by decide),
      Dict.get_set_ne _ _ _ _ (by decide), Dict.get_set_same]
  · rw [hu, Dict.get_set_ne _ _ _ _ (by decide), Dict.get_set_same]
  · rw [hu, Dict.get_set_same]
  · intro k h1 h2 h3
    rw [hu, Dict.get_set_ne _ _ _ _ h3, Dict.get_set_ne _ _ _ _ h2,
      Dict.get_set_ne _ _ _ _ h1]

/-- C9: the ExecutionContext is a LIFO stack: `push` appends at the top,
`current` returns the most recently pushed not-yet-popped action (without
modifying the stack, being a pure function of it) or `none` on the empty
stack, `pop` removes the top-most entry, and `pop` on the empty stack fails
(`none`, the embedding of the `IndexError` from `self._stack.pop(-1)`). -/
theorem executionContext_lifo :
    (∀ (c : ExecutionContext) (a : Action),
       ExecutionContext.current (ExecutionContext.push c a) = some a) ∧
    (∀ (c : ExecutionContext) (a : Action),
       ExecutionContext.pop (ExecutionContext.push c a) = some c) ∧
    ExecutionContext.current ExecutionContext.empty = none ∧
    ExecutionContext.pop ExecutionContext.empty = none := by
  refine ⟨fun c a => ?_, fun c a => ?_, rfl, rfl⟩
  · simp [ExecutionContext.current, ExecutionContext.push]
  · cases c with
    | mk stack =>
        cases stack with
        | nil => rfl
        | cons x xs =>
            show some (ExecutionContext.mk (((x :: xs) ++ [a]).dropLast)) =
              some ⟨x :: xs⟩
            rw [List.dropLast_concat]

/-- C1: `finish` is idempotent: the first call on an unfinished action sets
the finished flag and appends exactly one finish message to the log, with
the outcome (`action_status`, and the serializer selected) determined by
that first call's argument; every subsequent `finish` call, with any
argument, returns the state and the log unchanged. -/
theorem Action.finish_idempotent (a : Action) (exc : Option Exc)
    (log : List Emitted) (h : a.finished = false) :
    ∃ m : Emitted,
      (Action.finish a exc log).2 = log ++ [m] ∧
      (Action.finish a exc log).1.finished = true ∧
      Dict.get m.fields "action_status" =
        some (Value.str (if exc.isSome then "failed" else "succeeded")) ∧
      m.serializer =
        (if exc.isSome then Option.map ActionSerializers.failure a.serializers
         else Option.map ActionSerializers.success a.serializers) ∧
      ∀ (exc2 : Option Exc) (log2 : List Emitted),
        Action.finish (Action.finish a exc log).1 exc2 log2 =
          ((Action.finish a exc log).1, log2) := by
  cases exc with
  | none =>
      refine ⟨⟨Dict.update
            (Dict.set a.successFields "action_status" (Value.str "succeeded"))
            (Identification.toDict a.identification),
          Option.map ActionSerializers.success a.serializers⟩,
        ?_, ?_, ?_, ?_, ?_⟩
      · simp [Action.finish, h]
      · simp [Action.finish, h]
      · have hid := Dict.get_update_identification
          (Dict.set a.successFields "action_status" (Value.str "succeeded"))
          a.identification
        rw [hid.2.2.2 "action_status" (by decide) (by decide) (by decide),
          Dict.get_set_same]
        simp
      · simp
      · intro exc2 log2
        simp [Action.finish, h]
  | some e =>
      refine ⟨⟨Dict.update
            (Dict.set
              (Dict.set
                (Dict.set Dict.empty "exception"
                  (Value.str (e.module ++ "." ++ e.name)))
                "reason" (Value.str (safeunicode e)))
              "action_status" (Value.str "failed"))
            (Identification.toDict a.identification),
          Option.map ActionSerializers.failure a.serializers⟩,
        ?_, ?_, ?_, ?_, ?_⟩
      · simp [Action.finish, h]
      · simp [Action.finish, h]
      · have hid := Dict.get_update_identification
          (Dict.set
            (Dict.set
              (Dict.set Dict.empty "exception"
                (Value.str (e.module ++ "." ++ e.name)))
              "reason" (Value.str (safeunicode e)))
            "action_status" (Value.str "failed"))
          a.identification
        rw [hid.2.2.2 "action_status" (by decide) (by decide) (by decide),
          Dict.get_set_same]
        simp
      · simp
      · intro exc2 log2
        simp [Action.finish, h]

theorem Action.finish_idempotent_witness :
    (Action.init 0 "u" "/" "t" none).finished = false ∧
    ∃ m : Emitted,
      (Action.finish (Action.init 0 "u" "/" "t" none) none []).2 = [] ++ [m] ∧
      (Action.finish (Action.init 0 "u" "/" "t" none) none []).1.finished
        = true ∧
      Dict.get m.fields "action_status" =
        some (Value.str
          (if (none : Option Exc).isSome then "failed" else "succeeded")) ∧
      m.serializer =
        (if (none : Option Exc).isSome then
          Option.map ActionSerializers.failure
            (Action.init 0 "u" "/" "t" none).serializers
         else Option.map ActionSerializers.success
            (Action.init 0 "u" "/" "t" none).serializers) ∧
      ∀ (exc2 : Option Exc) (log2 : List Emitted),
        Action.finish (Action.finish (Action.init 0 "u" "/" "t" none)
            none []).1 exc2 log2 =
          ((Action.finish (Action.init 0 "u" "/" "t" none) none []).1,
           log2) :=
  ⟨rfl, Action.finish_idempotent (Action.init 0 "u" "/" "t" none) none [] rfl⟩

/-- C4: finishing an unfinished action with an exception appends a finish
message whose fields are exactly `exception` (the fully-qualified type
name `module.TypeName`), `reason` (the string form of the exception),
`action_status = "failed"`, and the three identification fields; every
other key — in particular any accumulated success field — is absent, and
the failure serializer is selected when serializers are present. -/
theorem Action.finish_failure_fields (a : Action) (e : Exc)
    (log : List Emitted) (h : a.finished = false) :
    ∃ m : Emitted,
      (Action.finish a (some e) log).2 = log ++ [m] ∧
      Dict.get m.fields "exception" =
        some (Value.str (e.module ++ "." ++ e.name)) ∧
      Dict.get m.fields "reason" = some (Value.str (safeunicode e)) ∧
      Dict.get m.fields "action_status" = some (Value.str "failed") ∧
      Dict.get m.fields "task_uuid" =
        some (Value.str a.identification.task_uuid) ∧
      Dict.get m.fields "task_level" =
        some (Value.str a.identification.task_level) ∧
      Dict.get m.fields "action_type" =
        some (Value.str a.identification.action_type) ∧
      (∀ k, k ≠ "exception" → k ≠ "reason" → k ≠ "action_status" →
        k ≠ "task_uuid" → k ≠ "task_level" → k ≠ "action_type" →
        Dict.get m.fields k = none) ∧
      m.serializer = Option.map ActionSerializers.failure a.serializers := by
  refine ⟨⟨Dict.update
        (Dict.set
          (Dict.set
            (Dict.set Dict.empty "exception"
              (Value.str (e.module ++ "." ++ e.name)))
            "reason" (Value.str (safeunicode e)))
          "action_status" (Value.str "failed"))
        (Identification.toDict a.identification),
      Option.map ActionSerializers.failure a.serializers⟩,
    ?_, ?_, ?_, ?_, ?_, ?_, ?_, ?_, rfl⟩
  · simp [Action.finish, h]
  · have hid := Dict.get_update_identification
      (Dict.set
        (Dict.set
          (Dict.set Dict.empty "exception"
            (Value.str (e.module ++ "." ++ e.name)))
          "reason" (Value.str (safeunicode e)))
        "action_status" (Value.str "failed"))
      a.identification
    rw [hid.2.2.2 "exception" (by decide) (by decide) (by decide),
      Dict.get_set_ne _ _ _ _ (by decide),
      Dict.get_set_ne _ _ _ _ (by decide), Dict.get_set_same]
  · have hid := Dict.get_update_identification
      (Dict.set
        (Dict.set
          (Dict.set Dict.empty "exception"
            (Value.str (e.module ++ "." ++ e.name)))
          "reason" (Value.str (safeunicode e)))
        "action_status" (Value.str "failed"))
      a.identification
    rw [hid.2.2.2 "reason" (by decide) (by decide) (by decide),
      Dict.get_set_ne _ _ _ _ (by decide), Dict.get_set_same]
  · have hid := Dict.get_update_identification
      (Dict.set
        (Dict.set
          (Dict.set Dict.empty "exception"
            (Value.str (e.module ++ "." ++ e.name)))
          "reason" (Value.str (safeunicode e)))
        "action_status" (Value.str "failed"))
      a.identification
    rw [hid.2.2.2 "action_status" (by decide) (by decide) (by decide),
      Dict.get_set_same]
  · exact (Dict.get_update_identification _ a.identification).1
  · exact (Dict.get_update_identification _ a.identification).2.1
  · exact (Dict.get_update_identification _ a.identification).2.2.1
  · intro k h1 h2 h3 h4 h5 h6
    have hid := Dict.get_update_identification
      (Dict.set
        (Dict.set
          (Dict.set Dict.empty "exception"
            (Value.str (e.module ++ "." ++ e.name)))
          "reason" (Value.str (safeunicode e)))
        "action_status" (Value.str "failed"))
      a.identification
    rw [hid.2.2.2 k h4 h5 h6, Dict.get_set_ne _ _ _ _ h3,
      Dict.get_set_ne _ _ _ _ h2, Dict.get_set_ne _ _ _ _ h1]
    rfl

theorem Action.finish_failure_fields_witness :
    (Action.init 0 "u" "/" "t" none).finished = false ∧
    ∃ m : Emitted,
      (Action.finish (Action.init 0 "u" "/" "t" none)
          (some ⟨"builtins", "ValueError", "boom"⟩) []).2 = [] ++ [m] ∧
      Dict.get m.fields "exception" =
        some (Value.str
          ((Exc.mk "builtins" "ValueError" "boom").module ++ "." ++
            (Exc.mk "builtins" "ValueError" "boom").name)) ∧
      Dict.get m.fields "reason" =
        some (Value.str (safeunicode ⟨"builtins", "ValueError", "boom"⟩)) ∧
      Dict.get m.fields "action_status" = some (Value.str "failed") ∧
      Dict.get m.fields "task_uuid" =
        some (Value.str (Action.init 0 "u" "/" "t"
          none).identification.task_uuid) ∧
      Dict.get m.fields "task_level" =
        some (Value.str (Action.init 0 "u" "/" "t"
          none).identification.task_level) ∧
      Dict.get m.fields "action_type" =
        some (Value.str (Action.init 0 "u" "/" "t"
          none).identification.action_type) ∧
      (∀ k, k ≠ "exception" → k ≠ "reason" → k ≠ "action_status" →
        k ≠ "task_uuid" → k ≠ "task_level" → k ≠ "action_type" →
        Dict.get m.fields k = none) ∧
      m.serializer = Option.map ActionSerializers.failure
        (Action.init 0 "u" "/" "t" none).serializers :=
  ⟨rfl, Action.finish_failure_fields (Action.init 0 "u" "/" "t" none)
    ⟨"builtins", "ValueError", "boom"⟩ [] rfl⟩

/-- C5: finishing an unfinished action with no exception appends a finish
message whose fields are exactly the accumulated success fields plus
`action_status = "succeeded"` plus the three identification fields (any
other key reads exactly as it does from the success-field accumulator),
with the success serializer selected when serializers are present. -/
theorem Action.finish_success_fields (a : Action) (log : List Emitted)
    (h : a.finished = false) :
    ∃ m : Emitted,
      (Action.finish a none log).2 = log ++ [m] ∧
      Dict.get m.fields "action_status" = some (Value.str "succeeded") ∧
      Dict.get m.fields "task_uuid" =
        some (Value.str a.identification.task_uuid) ∧
      Dict.get m.fields "task_level" =
        some (Value.str a.identification.task_level) ∧
      Dict.get m.fields "action_type" =
        some (Value.str a.identification.action_type) ∧
      (∀ k, k ≠ "action_status" → k ≠ "task_uuid" → k ≠ "task_level" →
        k ≠ "action_type" →
        Dict.get m.fields k = Dict.get a.successFields k) ∧
      m.serializer = Option.map ActionSerializers.success a.serializers := by
  refine ⟨⟨Dict.update
        (Dict.set a.successFields "action_status" (Value.str "succeeded"))
        (Identification.toDict a.identification),
      Option.map ActionSerializers.success a.serializers⟩,
    ?_, ?_, ?_, ?_, ?_, ?_, rfl⟩
  · simp [Action.finish, h]
  · have hid := Dict.get_update_identification
      (Dict.set a.successFields "action_status" (Value.str "succeeded"))
      a.identification
    rw [hid.2.2.2 "action_status" (by decide) (by decide) (by decide),
      Dict.get_set_same]
  · exact (Dict.get_update_identification _ a.identification).1
  · exact (Dict.get_update_identification _ a.identification).2.1
  · exact (Dict.get_update_identification _ a.identification).2.2.1
  · intro k h1 h2 h3 h4
    have hid := Dict.get_update_identification
      (Dict.set a.successFields "action_status" (Value.str "succeeded"))
      a.identification
    rw [hid.2.2.2 k h2 h3 h4, Dict.get_set_ne _ _ _ _ h1]

theorem Action.finish_success_fields_witness :
    ((Action.init 0 "u" "/" "t" none).addSuccessFields
        (Dict.ofList [("x", Value.nat 1)])).finished = false ∧
    ∃ m : Emitted,
      (Action.finish ((Action.init 0 "u" "/" "t" none).addSuccessFields
          (Dict.ofList [("x", Value.nat 1)])) none []).2 = [] ++ [m] ∧
      Dict.get m.fields "action_status" = some (Value.str "succeeded") ∧
      Dict.get m.fields "task_uuid" =
        some (Value.str ((Action.init 0 "u" "/" "t" none).addSuccessFields
          (Dict.ofList [("x", Value.nat 1)])).identification.task_uuid) ∧
      Dict.get m.fields "task_level" =
        some (Value.str ((Action.init 0 "u" "/" "t" none).addSuccessFields
          (Dict.ofList [("x", Value.nat 1)])).identification.task_level) ∧
      Dict.get m.fields "action_type" =
        some (Value.str ((Action.init 0 "u" "/" "t" none).addSuccessFields
          (Dict.ofList [("x", Value.nat 1)])).identification.action_type) ∧
      (∀ k, k ≠ "action_status" → k ≠ "task_uuid" → k ≠ "task_level" →
        k ≠ "action_type" →
        Dict.get m.fields k =
          Dict.get ((Action.init 0 "u" "/" "t" none).addSuccessFields
            (Dict.ofList [("x", Value.nat 1)])).successFields k) ∧
      m.serializer = Option.map ActionSerializers.success
        ((Action.init 0 "u" "/" "t" none).addSuccessFields
          (Dict.ofList [("x", Value.nat 1)])).serializers :=
  ⟨rfl, Action.finish_success_fields
    ((Action.init 0 "u" "/" "t" none).addSuccessFields
      (Dict.ofList [("x", Value.nat 1)])) [] rfl⟩

/-- C10: the identification fields and the core-assigned `action_status`
always win over caller-supplied fields of the same names: whatever keys the
extra start fields contain, the emitted start message carries the action's
own `task_uuid`, `task_level`, `action_type` and `action_status =
"started"`; likewise the success finish message carries the identification
values and `action_status = "succeeded"` over any success fields of the
same names. -/
theorem identification_precedence (a : Action) (extra : Dict)
    (log : List Emitted) (h : a.finished = false) :
    (∃ m : Emitted,
       Action.start a extra log = log ++ [m] ∧
       Dict.get m.fields "task_uuid" =
         some (Value.str a.identification.task_uuid) ∧
       Dict.get m.fields "task_level" =
         some (Value.str a.identification.task_level) ∧
       Dict.get m.fields "action_type" =
         some (Value.str a.identification.action_type) ∧
       Dict.get m.fields "action_status" = some (Value.str "started")) ∧
    (∃ m : Emitted,
       (Action.finish a none log).2 = log ++ [m] ∧
       Dict.get m.fields "task_uuid" =
         some (Value.str a.identification.task_uuid) ∧
       Dict.get m.fields "task_level" =
         some (Value.str a.identification.task_level) ∧
       Dict.get m.fields "action_type" =
         some (Value.str a.identification.action_type) ∧
       Dict.get m.fields "action_status" = some (Value.str "succeeded")) := by
  constructor
  · refine ⟨⟨Dict.update
          (Dict.set extra "action_status" (Value.str "started"))
          (Identification.toDict a.identification),
        Option.map ActionSerializers.start a.serializers⟩,
      rfl, ?_, ?_, ?_, ?_⟩
    · exact (Dict.get_update_identification _ a.identification).1
    · exact (Dict.get_update_identification _ a.identification).2.1
    · exact (Dict.get_update_identification _ a.identification).2.2.1
    · have hid := Dict.get_update_identification
        (Dict.set extra "action_status" (Value.str "started"))
        a.identification
      rw [hid.2.2.2 "action_status" (by decide) (by decide) (by decide),
        Dict.get_set_same]
  · refine ⟨⟨Dict.update
          (Dict.set a.successFields "action_status" (Value.str "succeeded"))
          (Identification.toDict a.identification),
        Option.map ActionSerializers.success a.serializers⟩,
      ?_, ?_, ?_, ?_, ?_⟩
    · simp [Action.finish, h]
    · exact (Dict.get_update_identification _ a.identification).1
    · exact (Dict.get_update_identification _ a.identification).2.1
    · exact (Dict.get_update_identification _ a.identification).2.2.1
    · have hid := Dict.get_update_identification
        (Dict.set a.successFields "action_status" (Value.str "succeeded"))
        a.identification
      rw [hid.2.2.2 "action_status" (by decide) (by decide) (by decide),
        Dict.get_set_same]

theorem identification_precedence_witness :
    ((Action.init 0 "u" "/" "t" none).addSuccessFields
        (Dict.ofList [("task_uuid", Value.str "fake")])).finished = false ∧
    (∃ m : Emitted,
       Action.start ((Action.init 0 "u" "/" "t" none).addSuccessFields
           (Dict.ofList [("task_uuid", Value.str "fake")]))
           (Dict.ofList [("task_uuid", Value.str "spoof"),
             ("action_status", Value.str "spoof")]) [] = [] ++ [m] ∧
       Dict.get m.fields "task_uuid" =
         some (Value.str ((Action.init 0 "u" "/" "t" none).addSuccessFields
           (Dict.ofList
             [("task_uuid", Value.str "fake")])).identification.task_uuid) ∧
       Dict.get m.fields "task_level" =
         some (Value.str ((Action.init 0 "u" "/" "t" none).addSuccessFields
           (Dict.ofList
             [("task_uuid", Value.str "fake")])).identification.task_level) ∧
       Dict.get m.fields "action_type" =
         some (Value.str ((Action.init 0 "u" "/" "t" none).addSuccessFields
           (Dict.ofList
             [("task_uuid", Value.str "fake")])).identification.action_type) ∧
       Dict.get m.fields "action_status" = some (Value.str "started")) ∧
    (∃ m : Emitted,
       (Action.finish ((Action.init 0 "u" "/" "t" none).addSuccessFields
           (Dict.ofList [("task_uuid", Value.str "fake")])) none []).2 =
         [] ++ [m] ∧
       Dict.get m.fields "task_uuid" =
         some (Value.str ((Action.init 0 "u" "/" "t" none).addSuccessFields
           (Dict.ofList
             [("task_uuid", Value.str "fake")])).identification.task_uuid) ∧
       Dict.get m.fields "task_level" =
         some (Value.str ((Action.init 0 "u" "/" "t" none).addSuccessFields
           (Dict.ofList
             [("task_uuid", Value.str "fake")])).identification.task_level) ∧
       Dict.get m.fields "action_type" =
         some (Value.str ((Action.init 0 "u" "/" "t" none).addSuccessFields
           (Dict.ofList
             [("task_uuid", Value.str "fake")])).identification.action_type) ∧
       Dict.get m.fields "action_status" = some (Value.str "succeeded")) :=
  ⟨rfl, identification_precedence
    ((Action.init 0 "u" "/" "t" none).addSuccessFields
      (Dict.ofList [("task_uuid", Value.str "fake")]))
    (Dict.ofList [("task_uuid", Value.str "spoof"),
      ("action_status", Value.str "spoof")]) [] rfl⟩

/-- C8: `addSuccessFields` merges the given fields into the success-field
accumulator additively with last-write-wins per key (under the dict
discipline that the kwargs mapping has no duplicate keys), touching no
other component of the action's state; and once the action is finished the
call has no observable effect — any subsequent `finish` still emits no
message and changes no state. -/
theorem Action.addSuccessFields_spec (a : Action) (fs : Dict)
    (hnd : (Dict.keys fs).Nodup) :
    (∀ k, Dict.get (Action.addSuccessFields a fs).successFields k =
       match Dict.get fs k with
       | some v => some v
       | none => Dict.get a.successFields k) ∧
    (Action.addSuccessFields a fs).finished = a.finished ∧
    (Action.addSuccessFields a fs).identification = a.identification ∧
    (Action.addSuccessFields a fs).numberOfChildren = a.numberOfChildren ∧
    (Action.addSuccessFields a fs).serializers = a.serializers ∧
    (a.finished = true →
      ∀ (exc : Option Exc) (log : List Emitted),
        Action.finish (Action.addSuccessFields a fs) exc log =
          (Action.addSuccessFields a fs, log)) := by
  refine ⟨fun k => Dict.get_update_nodup _ _ _ hnd, rfl, rfl, rfl, rfl, ?_⟩
  intro hf exc log
  simp [Action.finish, Action.addSuccessFields, hf]

theorem Action.addSuccessFields_spec_witness :
    (Dict.keys (Dict.ofList [("x", Value.nat 1), ("y", Value.nat 2)])).Nodup ∧
    ((∀ k, Dict.get (Action.addSuccessFields
          (Action.finish (Action.init 0 "u" "/" "t" none) none []).1
          (Dict.ofList
            [("x", Value.nat 1), ("y", Value.nat 2)])).successFields k =
       match Dict.get (Dict.ofList
          [("x", Value.nat 1), ("y", Value.nat 2)]) k with
       | some v => some v
       | none => Dict.get (Action.finish (Action.init 0 "u" "/" "t" none)
           none []).1.successFields k) ∧
    (Action.addSuccessFields
        (Action.finish (Action.init 0 "u" "/" "t" none) none []).1
        (Dict.ofList [("x", Value.nat 1), ("y", Value.nat 2)])).finished =
      (Action.finish (Action.init 0 "u" "/" "t" none) none []).1.finished ∧
    (Action.addSuccessFields
        (Action.finish (Action.init 0 "u" "/" "t" none) none []).1
        (Dict.ofList
          [("x", Value.nat 1), ("y", Value.nat 2)])).identification =
      (Action.finish (Action.init 0 "u" "/" "t" none)
        none []).1.identification ∧
    (Action.addSuccessFields
        (Action.finish (Action.init 0 "u" "/" "t" none) none []).1
        (Dict.ofList
          [("x", Value.nat 1), ("y", Value.nat 2)])).numberOfChildren =
      (Action.finish (Action.init 0 "u" "/" "t" none)
        none []).1.numberOfChildren ∧
    (Action.addSuccessFields
        (Action.finish (Action.init 0 "u" "/" "t" none) none []).1
        (Dict.ofList [("x", Value.nat 1), ("y", Value.nat 2)])).serializers =
      (Action.finish (Action.init 0 "u" "/" "t" none)
        none []).1.serializers ∧
    ((Action.finish (Action.init 0 "u" "/" "t" none)
        none []).1.finished = true →
      ∀ (exc : Option Exc) (log : List Emitted),
        Action.finish (Action.addSuccessFields
            (Action.finish (Action.init 0 "u" "/" "t" none) none []).1
            (Dict.ofList [("x", Value.nat 1), ("y", Value.nat 2)]))
            exc log =
          (Action.addSuccessFields
            (Action.finish (Action.init 0 "u" "/" "t" none) none []).1
            (Dict.ofList [("x", Value.nat 1), ("y", Value.nat 2)]), log))) :=
  ⟨by decide, Action.addSuccessFields_spec
    (Action.finish (Action.init 0 "u" "/" "t" none) none []).1
    (Dict.ofList [("x", Value.nat 1), ("y", Value.nat 2)]) (by decide)⟩

theorem childCalls_spec
    (specs : List (Nat × String × Option ActionSerializers)) :
    ∀ (a : Action) (log : List Emitted),
      (childCalls a specs log).1.numberOfChildren =
          a.numberOfChildren + specs.length ∧
      (childCalls a specs log).1.identification = a.identification ∧
      (childCalls a specs log).2.2 = log ∧
      (childCalls a specs log).2.1.length = specs.length ∧
      ∀ i (hi : i < (childCalls a specs log).2.1.length),
        ((childCalls a specs log).2.1.get ⟨i, hi⟩).identification.task_uuid =
            a.identification.task_uuid ∧
        ((childCalls a specs log).2.1.get ⟨i, hi⟩).identification.task_level =
            a.identification.task_level ++
              toString (a.numberOfChildren + i + 1) ++ "/" ∧
        ((childCalls a specs log).2.1.get ⟨i, hi⟩).finished = false := by
  induction specs with
  | nil =>
      intro a log
      refine ⟨by simp [childCalls], rfl, rfl, rfl, ?_⟩
      intro i hi
      simp [childCalls] at hi
  | cons s rest ih =>
      intro a log
      obtain ⟨ihn, ihid, ihlog, ihlen, ihget⟩ :=
        ih { a with numberOfChildren := a.numberOfChildren + 1 } log
      have ihn' : (childCalls
          { a with numberOfChildren := a.numberOfChildren + 1 }
          rest log).1.numberOfChildren =
            a.numberOfChildren + 1 + rest.length := ihn
      refine ⟨?_, ?_, ?_, ?_, ?_⟩
      · show (childCalls { a with numberOfChildren := a.numberOfChildren + 1 }
            rest log).1.numberOfChildren =
          a.numberOfChildren + (rest.length + 1)
        rw [ihn']
        omega
      · exact ihid
      · exact ihlog
      · show ((childCalls { a with numberOfChildren := a.numberOfChildren + 1 }
            rest log).2.1.length) + 1 = rest.length + 1
        rw [ihlen]
      · intro i hi
        cases i with
        | zero =>
            refine ⟨rfl, ?_, rfl⟩
            show a.identification.task_level ++
                toString (a.numberOfChildren + 1) ++ "/" =
              a.identification.task_level ++
                toString (a.numberOfChildren + 0 + 1) ++ "/"
            rfl
        | succ j =>
            have hj : j < (childCalls
                { a with numberOfChildren := a.numberOfChildren + 1 }
                rest log).2.1.length := by
              have hi' : j + 1 < (childCalls
                  { a with numberOfChildren := a.numberOfChildren + 1 }
                  rest log).2.1.length + 1 := hi
              omega
            have hgj := ihget j hj
            have hlev : ((childCalls
                { a with numberOfChildren := a.numberOfChildren + 1 }
                rest log).2.1.get ⟨j, hj⟩).identification.task_level =
              a.identification.task_level ++
                toString (a.numberOfChildren + 1 + j + 1) ++ "/" := hgj.2.1
            refine ⟨hgj.1, ?_, hgj.2.2⟩
            have harith : a.numberOfChildren + 1 + j + 1 =
                a.numberOfChildren + (j + 1) + 1 := by omega
            show ((childCalls
                { a with numberOfChildren := a.numberOfChildren + 1 }
                rest log).2.1.get ⟨j, hj⟩).identification.task_level =
              a.identification.task_level ++
                toString (a.numberOfChildren + (j + 1) + 1) ++ "/"
            rw [hlev, harith]

/-- C2: for N successive `child` calls on a fresh action, each call
increments `number_of_children` (so after N calls the counter is N and a
single call takes it from c to c+1), the i-th child's task level is the
parent's level with the decimal rendering of i and `"/"` appended —
children created in order get levels 1..N regardless of what happens
later — every child shares the parent's `task_uuid` and is unstarted, and
`child` writes no start message (the log trace is unchanged). -/
theorem Action.child_levels (a : Action)
    (specs : List (Nat × String × Option ActionSerializers))
    (log : List Emitted) (h0 : a.numberOfChildren = 0) :
    (childCalls a specs log).1.numberOfChildren = specs.length ∧
    (childCalls a specs log).2.2 = log ∧
    (childCalls a specs log).2.1.length = specs.length ∧
    (∀ (lg : Nat) (t : String) (s : Option ActionSerializers)
       (l2 : List Emitted),
       (Action.child a lg t s l2).1.numberOfChildren =
         a.numberOfChildren + 1 ∧
       (Action.child a lg t s l2).2.2 = l2) ∧
    ∀ i (hi : i < (childCalls a specs log).2.1.length),
      ((childCalls a specs log).2.1.get ⟨i, hi⟩).identification.task_uuid =
          a.identification.task_uuid ∧
      ((childCalls a specs log).2.1.get ⟨i, hi⟩).identification.task_level =
          a.identification.task_level ++ toString (i + 1) ++ "/" ∧
      ((childCalls a specs log).2.1.get ⟨i, hi⟩).finished = false := by
  obtain ⟨hn, hid, hlog, hlen, hget⟩ := childCalls_spec specs a log
  refine ⟨by rw [hn, h0, Nat.zero_add], hlog, hlen,
    fun lg t s l2 => ⟨rfl, rfl⟩, ?_⟩
  intro i hi
  obtain ⟨hu, hl, hf⟩ := hget i hi
  refine ⟨hu, ?_, hf⟩
  rw [hl, h0, Nat.zero_add]

theorem Action.child_levels_witness :
    (Action.init 0 "u" "/" "t" none).numberOfChildren = 0 ∧
    ((childCalls (Action.init 0 "u" "/" "t" none)
        [(1, "t:c1", none), (2, "t:c2", none), (3, "t:c3", none)]
        []).1.numberOfChildren =
      ([(1, "t:c1", none), (2, "t:c2", none),
        (3, "t:c3", (none : Option ActionSerializers))]).length ∧
    (childCalls (Action.init 0 "u" "/" "t" none)
        [(1, "t:c1", none), (2, "t:c2", none), (3, "t:c3", none)] []).2.2 =
      [] ∧
    (childCalls (Action.init 0 "u" "/" "t" none)
        [(1, "t:c1", none), (2, "t:c2", none), (3, "t:c3", none)]
        []).2.1.length =
      ([(1, "t:c1", none), (2, "t:c2", none),
        (3, "t:c3", (none : Option ActionSerializers))]).length ∧
    (∀ (lg : Nat) (t : String) (s : Option ActionSerializers)
       (l2 : List Emitted),
       (Action.child (Action.init 0 "u" "/" "t" none) lg t s
           l2).1.numberOfChildren =
         (Action.init 0 "u" "/" "t" none).numberOfChildren + 1 ∧
       (Action.child (Action.init 0 "u" "/" "t" none) lg t s l2).2.2 = l2) ∧
    ∀ i (hi : i < (childCalls (Action.init 0 "u" "/" "t" none)
        [(1, "t:c1", none), (2, "t:c2", none), (3, "t:c3", none)]
        []).2.1.length),
      ((childCalls (Action.init 0 "u" "/" "t" none)
          [(1, "t:c1", none), (2, "t:c2", none), (3, "t:c3", none)]
          []).2.1.get ⟨i, hi⟩).identification.task_uuid =
        (Action.init 0 "u" "/" "t" none).identification.task_uuid ∧
      ((childCalls (Action.init 0 "u" "/" "t" none)
          [(1, "t:c1", none), (2, "t:c2", none), (3, "t:c3", none)]
          []).2.1.get ⟨i, hi⟩).identification.task_level =
        (Action.init 0 "u" "/" "t" none).identification.task_level ++
          toString (i + 1) ++ "/" ∧
      ((childCalls (Action.init 0 "u" "/" "t" none)
          [(1, "t:c1", none), (2, "t:c2", none), (3, "t:c3", none)]
          []).2.1.get ⟨i, hi⟩).finished = false) :=
  ⟨rfl, Action.child_levels (Action.init 0 "u" "/" "t" none)
    [(1, "t:c1", none), (2, "t:c2", none), (3, "t:c3", none)] [] rfl⟩

theorem Dict.get_failure_fields (e : Exc) (i : Identification) :
    Dict.get (Dict.update
      (Dict.set
        (Dict.set
          (Dict.set Dict.empty "exception"
            (Value.str (e.module ++ "." ++ e.name)))
          "reason" (Value.str (safeunicode e)))
        "action_status" (Value.str "failed"))
      (Identification.toDict i)) "exception" =
        some (Value.str (e.module ++ "." ++ e.name)) ∧
    Dict.get (Dict.update
      (Dict.set
        (Dict.set
          (Dict.set Dict.empty "exception"
            (Value.str (e.module ++ "." ++ e.name)))
          "reason" (Value.str (safeunicode e)))
        "action_status" (Value.str "failed"))
      (Identification.toDict i)) "reason" =
        some (Value.str (safeunicode e)) ∧
    Dict.get (Dict.update
      (Dict.set
        (Dict.set
          (Dict.set Dict.empty "exception"
            (Value.str (e.module ++ "." ++ e.name)))
          "reason" (Value.str (safeunicode e)))
        "action_status" (Value.str "failed"))
      (Identification.toDict i)) "action_status" =
        some (Value.str "failed") := by
  have hid := Dict.get_update_identification
    (Dict.set
      (Dict.set
        (Dict.set Dict.empty "exception"
          (Value.str (e.module ++ "." ++ e.name)))
        "reason" (Value.str (safeunicode e)))
      "action_status" (Value.str "failed")) i
  refine ⟨?_, ?_, ?_⟩
  · rw [hid.2.2.2 "exception" (by decide) (by decide) (by decide),
      Dict.get_set_ne _ _ _ _ (by decide),
      Dict.get_set_ne _ _ _ _ (by decide), Dict.get_set_same]
  · rw [hid.2.2.2 "reason" (by decide) (by decide) (by decide),
      Dict.get_set_ne _ _ _ _ (by decide), Dict.get_set_same]
  · rw [hid.2.2.2 "action_status" (by decide) (by decide) (by decide),
      Dict.get_set_same]

/-- The startAction levels scenario: a root task, a child under it, a
grandchild under the child, and then a sibling after the child's context is
popped. -/
def scenarioRoot : Action := (startTask 7 "u0" "t:a" none Dict.empty []).1

def scenarioCtx1 : ExecutionContext :=
  ExecutionContext.push ExecutionContext.empty scenarioRoot

def scenarioS2 : ExecutionContext × Action × List Emitted :=
  startAction scenarioCtx1 7 "u1" "t:b" none Dict.empty []

def scenarioCtx2 : ExecutionContext :=
  ExecutionContext.push scenarioS2.1 scenarioS2.2.1

def scenarioS3 : ExecutionContext × Action × List Emitted :=
  startAction scenarioCtx2 7 "u2" "t:c" none Dict.empty []

def scenarioCtx3 : ExecutionContext :=
  (ExecutionContext.pop scenarioS3.1).getD ExecutionContext.empty

def scenarioS4 : ExecutionContext × Action × List Emitted :=
  startAction scenarioCtx3 7 "u3" "t:d" none Dict.empty []

/-- C3: `startAction` resolves the current action from the execution
context: with no current action it returns exactly what `startTask`
returns (a root action at level `"/"`), leaving the context alone;
with a current action it returns the child made by `Action.child` —
sharing the parent's `task_uuid`, at the parent's level extended by the
next child index — after logging that child's start message with the
given fields.  Consequently, in the concrete scenario, the root has level
`"/"`, a nested startAction under it yields `"/1/"`, a further nested one
`"/1/1/"`, and a sibling after popping yields `"/2/"`. -/
theorem startAction_resolves_context :
    (∀ (ctx : ExecutionContext) (lg : Nat) (uuid atype : String)
       (s : Option ActionSerializers) (fields : Dict) (log : List Emitted),
       ExecutionContext.current ctx = none →
       startAction ctx lg uuid atype s fields log =
         (ctx, startTask lg uuid atype s fields log)) ∧
    (∀ (ctx : ExecutionContext) (parent : Action) (lg : Nat)
       (uuid atype : String) (s : Option ActionSerializers) (fields : Dict)
       (log : List Emitted),
       ExecutionContext.current ctx = some parent →
       startAction ctx lg uuid atype s fields log =
         (ExecutionContext.setTop ctx (Action.child parent lg atype s log).1,
          (Action.child parent lg atype s log).2.1,
          Action.start (Action.child parent lg atype s log).2.1 fields
            (Action.child parent lg atype s log).2.2) ∧
       (startAction ctx lg uuid atype s fields
           log).2.1.identification.task_uuid =
         parent.identification.task_uuid ∧
       (startAction ctx lg uuid atype s fields
           log).2.1.identification.task_level =
         parent.identification.task_level ++
           toString (parent.numberOfChildren + 1) ++ "/") ∧
    scenarioRoot.identification.task_level = "/" ∧
    scenarioS2.2.1.identification.task_level = "/1/" ∧
    scenarioS3.2.1.identification.task_level = "/1/1/" ∧
    ExecutionContext.pop scenarioS3.1 ≠ none ∧
    scenarioS4.2.1.identification.task_level = "/2/" := by
  refine ⟨?_, ?_, rfl, by decide, by decide, by decide, by decide⟩
  · intro ctx lg uuid atype s fields log h
    simp [startAction, h]
  · intro ctx parent lg uuid atype s fields log h
    refine ⟨by simp [startAction, h], ?_, ?_⟩ <;> simp [startAction, h] <;>
      rfl

theorem startAction_resolves_context_witness :
    (ExecutionContext.current ExecutionContext.empty = none ∧
      startAction ExecutionContext.empty 3 "u" "t:x" none Dict.empty [] =
        (ExecutionContext.empty,
         startTask 3 "u" "t:x" none Dict.empty [])) ∧
    (ExecutionContext.current scenarioCtx1 = some scenarioRoot ∧
      startAction scenarioCtx1 3 "u" "t:y" none Dict.empty [] =
        (ExecutionContext.setTop scenarioCtx1
           (Action.child scenarioRoot 3 "t:y" none []).1,
         (Action.child scenarioRoot 3 "t:y" none []).2.1,
         Action.start (Action.child scenarioRoot 3 "t:y" none []).2.1
           Dict.empty (Action.child scenarioRoot 3 "t:y" none []).2.2) ∧
      (startAction scenarioCtx1 3 "u" "t:y" none Dict.empty
          []).2.1.identification.task_uuid =
        scenarioRoot.identification.task_uuid ∧
      (startAction scenarioCtx1 3 "u" "t:y" none Dict.empty
          []).2.1.identification.task_level =
        scenarioRoot.identification.task_level ++
          toString (scenarioRoot.numberOfChildren + 1) ++ "/") :=
  ⟨⟨rfl, startAction_resolves_context.1 ExecutionContext.empty 3 "u" "t:x"
      none Dict.empty [] rfl⟩,
   ⟨by decide, startAction_resolves_context.2.1 scenarioCtx1 scenarioRoot 3
      "u" "t:y" none Dict.empty [] (by decide)⟩⟩

/-- C6: exiting an action used as a scoped context pops the execution
context and calls `finish(exception)` with whatever exception propagated
out of the scope (`none` on a normal exit); in particular a scope exited
by a propagating exception emits exactly one failure finish message
carrying that exception's data, and the `false` returned for `__exit__`'s
truthiness means the exception keeps propagating to the caller. -/
theorem Action.exit_pops_and_finishes (a : Action) (ctx : ExecutionContext)
    (e : Exc) (log : List Emitted) (ha : a.finished = false)
    (hc : ctx.stack ≠ []) :
    (∀ exc : Option Exc,
       Action.exit a ctx exc log =
         some ({ stack := ctx.stack.dropLast },
               (Action.finish a exc log).1, (Action.finish a exc log).2,
               false)) ∧
    ∃ m : Emitted,
      Action.exit a ctx (some e) log =
        some ({ stack := ctx.stack.dropLast }, { a with finished := true },
              log ++ [m], false) ∧
      Dict.get m.fields "action_status" = some (Value.str "failed") ∧
      Dict.get m.fields "exception" =
        some (Value.str (e.module ++ "." ++ e.name)) ∧
      Dict.get m.fields "reason" = some (Value.str (safeunicode e)) := by
  obtain ⟨stack⟩ := ctx
  cases stack with
  | nil => exact absurd rfl hc
  | cons x xs =>
      constructor
      · intro exc
        rfl
      · refine ⟨⟨Dict.update
            (Dict.set
              (Dict.set
                (Dict.set Dict.empty "exception"
                  (Value.str (e.module ++ "." ++ e.name)))
                "reason" (Value.str (safeunicode e)))
              "action_status" (Value.str "failed"))
            (Identification.toDict a.identification),
          Option.map ActionSerializers.failure a.serializers⟩,
          ?_, (Dict.get_failure_fields e a.identification).2.2,
          (Dict.get_failure_fields e a.identification).1,
          (Dict.get_failure_fields e a.identification).2.1⟩
        simp [Action.exit, ExecutionContext.pop, Action.finish, ha]

theorem Action.exit_pops_and_finishes_witness :
    (Action.init 0 "u" "/" "t" none).finished = false ∧
    (ExecutionContext.push ExecutionContext.empty
      (Action.init 0 "u" "/" "t" none)).stack ≠ [] ∧
    ((∀ exc : Option Exc,
       Action.exit (Action.init 0 "u" "/" "t" none)
           (ExecutionContext.push ExecutionContext.empty
             (Action.init 0 "u" "/" "t" none)) exc [] =
         some ({ stack := (ExecutionContext.push ExecutionContext.empty
                   (Action.init 0 "u" "/" "t" none)).stack.dropLast },
               (Action.finish (Action.init 0 "u" "/" "t" none) exc []).1,
               (Action.finish (Action.init 0 "u" "/" "t" none) exc []).2,
               false)) ∧
    ∃ m : Emitted,
      Action.exit (Action.init 0 "u" "/" "t" none)
          (ExecutionContext.push ExecutionContext.empty
            (Action.init 0 "u" "/" "t" none))
          (some ⟨"builtins", "KeyError", "missing"⟩) [] =
        some ({ stack := (ExecutionContext.push ExecutionContext.empty
                  (Action.init 0 "u" "/" "t" none)).stack.dropLast },
              { Action.init 0 "u" "/" "t" none with finished := true },
              [] ++ [m], false) ∧
      Dict.get m.fields "action_status" = some (Value.str "failed") ∧
      Dict.get m.fields "exception" =
        some (Value.str ((Exc.mk "builtins" "KeyError" "missing").module ++
          "." ++ (Exc.mk "builtins" "KeyError" "missing").name)) ∧
      Dict.get m.fields "reason" =
        some (Value.str (safeunicode ⟨"builtins", "KeyError", "missing"⟩))) :=
  ⟨rfl, by decide, Action.exit_pops_and_finishes
    (Action.init 0 "u" "/" "t" none)
    (ExecutionContext.push ExecutionContext.empty
      (Action.init 0 "u" "/" "t" none))
    ⟨"builtins", "KeyError", "missing"⟩ [] rfl (by decide)⟩

/-- C7: `finishAfter` only registers the single `done` continuation — the
action state and the log come back unchanged, so nothing is waited on and
no finish happens synchronously; the continuation extracts the exception
when the future resolved in a failure state (`none` otherwise), calls
`finish` with it (producing the corresponding failure or success finish
message on a not-yet-finished action), and returns the future's original
result unchanged for any downstream continuation. -/
theorem Action.finishAfter_spec (a : Action) (log : List Emitted)
    (h : a.finished = false) :
    (Action.finishAfter a log).1 = (a, log) ∧
    (Action.finishAfter a log).2 = Action.finishAfterDone a ∧
    (∀ (r : DeferredResult) (log2 : List Emitted),
       (Action.finishAfterDone a r log2).2.2 = r) ∧
    (∀ (e : Exc) (log2 : List Emitted), ∃ m : Emitted,
       Action.finishAfterDone a (DeferredResult.failure e) log2 =
         ({ a with finished := true }, log2 ++ [m],
          DeferredResult.failure e) ∧
       Dict.get m.fields "action_status" = some (Value.str "failed") ∧
       Dict.get m.fields "exception" =
         some (Value.str (e.module ++ "." ++ e.name)) ∧
       Dict.get m.fields "reason" = some (Value.str (safeunicode e)) ∧
       m.serializer = Option.map ActionSerializers.failure a.serializers) ∧
    (∀ (v : Value) (log2 : List Emitted), ∃ m : Emitted,
       Action.finishAfterDone a (DeferredResult.success v) log2 =
         ((Action.finish a none log2).1, log2 ++ [m],
          DeferredResult.success v) ∧
       Dict.get m.fields "action_status" = some (Value.str "succeeded")) := by
  refine ⟨rfl, rfl, ?_, ?_, ?_⟩
  · intro r log2
    cases r <;> rfl
  · intro e log2
    refine ⟨⟨Dict.update
          (Dict.set
            (Dict.set
              (Dict.set Dict.empty "exception"
                (Value.str (e.module ++ "." ++ e.name)))
              "reason" (Value.str (safeunicode e)))
            "action_status" (Value.str "failed"))
          (Identification.toDict a.identification),
        Option.map ActionSerializers.failure a.serializers⟩,
      ?_, (Dict.get_failure_fields e a.identification).2.2,
      (Dict.get_failure_fields e a.identification).1,
      (Dict.get_failure_fields e a.identification).2.1, rfl⟩
    simp [Action.finishAfterDone, Action.finish, h]
  · intro v log2
    refine ⟨⟨Dict.update
          (Dict.set a.successFields "action_status" (Value.str "succeeded"))
          (Identification.toDict a.identification),
        Option.map ActionSerializers.success a.serializers⟩,
      ?_, ?_⟩
    · simp [Action.finishAfterDone, Action.finish, h]
    · have hid := Dict.get_update_identification
        (Dict.set a.successFields "action_status" (Value.str "succeeded"))
        a.identification
      rw [hid.2.2.2 "action_status" (by decide) (by decide) (by decide),
        Dict.get_set_same]

theorem Action.finishAfter_spec_witness :
    (Action.init 0 "u" "/" "t" none).finished = false ∧
    ((Action.finishAfter (Action.init 0 "u" "/" "t" none) []).1 =
      (Action.init 0 "u" "/" "t" none, []) ∧
    (Action.finishAfter (Action.init 0 "u" "/" "t" none) []).2 =
      Action.finishAfterDone (Action.init 0 "u" "/" "t" none) ∧
    (∀ (r : DeferredResult) (log2 : List Emitted),
       (Action.finishAfterDone (Action.init 0 "u" "/" "t" none) r
         log2).2.2 = r) ∧
    (∀ (e : Exc) (log2 : List Emitted), ∃ m : Emitted,
       Action.finishAfterDone (Action.init 0 "u" "/" "t" none)
           (DeferredResult.failure e) log2 =
         ({ Action.init 0 "u" "/" "t" none with finished := true },
          log2 ++ [m], DeferredResult.failure e) ∧
       Dict.get m.fields "action_status" = some (Value.str "failed") ∧
       Dict.get m.fields "exception" =
         some (Value.str (e.module ++ "." ++ e.name)) ∧
       Dict.get m.fields "reason" = some (Value.str (safeunicode e)) ∧
       m.serializer = Option.map ActionSerializers.failure
         (Action.init 0 "u" "/" "t" none).serializers) ∧
    (∀ (v : Value) (log2 : List Emitted), ∃ m : Emitted,
       Action.finishAfterDone (Action.init 0 "u" "/" "t" none)
           (DeferredResult.success v) log2 =
         ((Action.finish (Action.init 0 "u" "/" "t" none) none log2).1,
          log2 ++ [m], DeferredResult.success v) ∧
       Dict.get m.fields "action_status" = some (Value.str "succeeded"))) :=
  ⟨rfl, Action.finishAfter_spec (Action.init 0 "u" "/" "t" none) [] rfl⟩

end Eliot
